import Mathlib

/-!
Verification of the document-to-Markdown converter of granola-cli
(src/utils/convertJsonNodes.ts), shallowly embedded in Lean.
-/

namespace Granola

/-- The list kind carried by a render context: the source's
`listType?: "bullet" | "ordered"` union. -/
inductive ListType where
  | bullet
  | ordered
deriving DecidableEq

/-- A node of the document content tree; mirrors the TypeScript `ContentNode`
shape read by `convertNodeToMarkdown`: a `type` tag, an optional `content`
array of child nodes, an optional `attrs` bag of which only the optional
numeric `level` field is consumed (hence `Option (Option Nat)`), and an
optional `text` payload. -/
inductive ContentNode : Type where
  | mk (type : String) (content : Option (List ContentNode))
      (attrs : Option (Option Nat)) (text : Option String)

/-- The `type` field of a node. -/
def ContentNode.type : ContentNode → String
  | .mk t _ _ _ => t

/-- The `content` field of a node. -/
def ContentNode.content : ContentNode → Option (List ContentNode)
  | .mk _ c _ _ => c

/-- The `attrs?.level` field of a node. -/
def ContentNode.attrs : ContentNode → Option (Option Nat)
  | .mk _ _ a _ => a

/-- The `text` field of a node. -/
def ContentNode.text : ContentNode → Option String
  | .mk _ _ _ x => x

/-- The `ConvertContext` record of the source: current list nesting depth,
optional list kind, optional zero-based item index. -/
structure ConvertContext where
  depth : Nat
  listType : Option ListType := none
  itemIndex : Option Nat := none
deriving DecidableEq

/-- JavaScript `s.repeat(n)`: the string `s` repeated `n` times. -/
def strRepeat (n : Nat) (s : String) : String :=
  String.join (List.replicate n s)

mutual

/-- Shallow embedding of `convertNodeToMarkdown(node, ctx)`.  The source's
`switch (node.type)` becomes a chain of string comparisons; optional fields
follow the JavaScript truthiness defaults of the source (`node.content || []`,
`node.text || ""`, `ctx.itemIndex || 0`, `node.attrs?.level || 1`). -/
def convertNodeToMarkdown : ContentNode → ConvertContext → String
  | ContentNode.mk t c a x, ctx =>
    let indent := strRepeat ctx.depth "  "
    if t = "doc" then
      match c with
      | some l => convertSeq l ctx
      | none => ""
    else if t = "paragraph" then
      let text :=
        match c with
        | some l => convertSeq l ctx
        | none => ""
      if ctx.listType.isSome then text else text ++ "\n\n"
    else if t = "heading" then
      let level :=
        match a with
        | some (some l) => if l = 0 then 1 else l
        | _ => 1
      let text :=
        match c with
        | some l => convertSeq l ctx
        | none => ""
      strRepeat level "#" ++ " " ++ text ++ "\n\n"
    else if t = "bulletList" then
      let result := convertItems ListType.bullet ctx.depth 0 (c.getD [])
      if ctx.depth = 0 then result ++ "\n" else result
    else if t = "orderedList" then
      let result := convertItems ListType.ordered ctx.depth 0 (c.getD [])
      if ctx.depth = 0 then result ++ "\n" else result
    else if t = "listItem" then
      let marker :=
        if ctx.listType = some ListType.ordered then
          toString (ctx.itemIndex.getD 0 + 1) ++ ". "
        else "- "
      indent ++ marker ++ convertItemChildren (c.getD []) ctx ++ "\n"
    else if t = "text" then
      x.getD ""
    else if t = "horizontalRule" then
      "---\n\n"
    else ""
termination_by n ctx => sizeOf n
decreasing_by
  all_goals simp_wf
  all_goals try omega
  all_goals cases c <;> simp_all <;> omega

/-- The source's `node.content.map((n) => convertNodeToMarkdown(n, ctx)).join("")`:
every child rendered with the same context, results concatenated. -/
def convertSeq : List ContentNode → ConvertContext → String
  | [], _ => ""
  | n :: rest, ctx => convertNodeToMarkdown n ctx ++ convertSeq rest ctx
termination_by l ctx => sizeOf l
decreasing_by all_goals simp_wf <;> omega

/-- The source's `items.map((item, i) => convertNodeToMarkdown(item, { depth,
listType, itemIndex: i })).join("")` of the two list cases: each item rendered
with the given list kind, the same depth, and its position as item index. -/
def convertItems : ListType → Nat → Nat → List ContentNode → String
  | _, _, _, [] => ""
  | lt, depth, i, item :: rest =>
    convertNodeToMarkdown item ⟨depth, some lt, some i⟩
      ++ convertItems lt depth (i + 1) rest
termination_by lt d i l => sizeOf l
decreasing_by all_goals simp_wf <;> omega

/-- The source's `listItem` child loop: a nested `bulletList`/`orderedList`
child is rendered at `depth + 1` with its own list kind and prefixed by a
newline; any other child is rendered with the unchanged current context. -/
def convertItemChildren : List ContentNode → ConvertContext → String
  | [], _ => ""
  | child :: rest, ctx =>
    (if child.type = "bulletList" ∨ child.type = "orderedList" then
      "\n" ++ convertNodeToMarkdown child
        ⟨ctx.depth + 1,
          some (if child.type = "orderedList" then ListType.ordered else ListType.bullet),
          none⟩
    else
      convertNodeToMarkdown child ctx) ++ convertItemChildren rest ctx
termination_by l ctx => sizeOf l
decreasing_by all_goals simp_wf <;> omega

end

/-- The default context of the source (`ctx = { depth: 0 }`): depth zero, no
list type, no item index. -/
def defaultCtx : ConvertContext := ⟨0, none, none⟩

/-- A legacy attachment: carries a `content` string holding a JSON-encoded
node tree. -/
structure Attachment where
  content : String

/-- The top-level input of `convertDocumentToMarkdown`, with the fields the
function inspects dynamically: an optional `type` tag plus the `ContentNode`
fields (the source casts the structure to a `ContentNode` when `type` is
`"doc"`), and an optional `attachments` array (`some` models a value for which
`Array.isArray` holds). -/
structure DocumentStructure where
  type : Option String := none
  content : Option (List ContentNode) := none
  attrs : Option (Option Nat) := none
  text : Option String := none
  attachments : Option (List Attachment) := none

/-- The legacy branch's `attachments.map((attachment) =>
convertNodeToMarkdown(JSON.parse(attachment.content)))`: each attachment's
content is parsed (a parse failure throws, aborting the whole map) and the
parsed tree rendered with a fresh top-level context.  `JSON.parse` is the
JavaScript built-in, modelled by the `parse` parameter. -/
def renderAttachments (parse : String → Except String ContentNode) :
    List Attachment → Except String (List String)
  | [] => Except.ok []
  | a :: rest =>
    match parse a.content with
    | Except.error e => Except.error e
    | Except.ok n =>
      match renderAttachments parse rest with
      | Except.error e => Except.error e
      | Except.ok others => Except.ok (convertNodeToMarkdown n defaultCtx :: others)

/-- Shallow embedding of `convertDocumentToMarkdown(content)`: empty string
for an absent structure; delegate to `convertNodeToMarkdown` under the default
context when `type` is `"doc"`; otherwise render and join the attachments with
`" \n\n "` when `attachments` is an array, an uncaught parse failure
propagating as the error; otherwise empty string. -/
def convertDocumentToMarkdown (parse : String → Except String ContentNode) :
    Option DocumentStructure → Except String String
  | none => Except.ok ""
  | some c =>
    if c.type = some "doc" then
      Except.ok (convertNodeToMarkdown
        (ContentNode.mk "doc" c.content c.attrs c.text) defaultCtx)
    else
      match c.attachments with
      | some atts =>
        match renderAttachments parse atts with
        | Except.error e => Except.error e
        | Except.ok parts => Except.ok (String.intercalate " \n\n " parts)
      | none => Except.ok ""

/-- A three-item ordered list, each item a paragraph-free text wrapper, used
as the concrete example of the ordered-numbering property. -/
def orderedThree : ContentNode :=
  ContentNode.mk "orderedList"
    (some [ContentNode.mk "listItem" (some [ContentNode.mk "text" none none (some "a")]) none none,
           ContentNode.mk "listItem" (some [ContentNode.mk "text" none none (some "b")]) none none,
           ContentNode.mk "listItem" (some [ContentNode.mk "text" none none (some "c")]) none none])
    none none

/-- A parse function for the legacy-attachment examples: maps two known
payload strings to single text nodes and rejects everything else. -/
def sampleParse (s : String) : Except String ContentNode :=
  if s = "first" then Except.ok (ContentNode.mk "text" none none (some "a"))
  else if s = "second" then Except.ok (ContentNode.mk "text" none none (some "b"))
  else Except.error "Unexpected token"

/-- A legacy document structure with two well-formed attachments. -/
def sampleLegacyDoc : DocumentStructure :=
  { attachments := some [⟨"first"⟩, ⟨"second"⟩] }

/-- A legacy document structure whose second attachment has malformed
content. -/
def sampleBadLegacyDoc : DocumentStructure :=
  { attachments := some [⟨"first"⟩, ⟨"oops"⟩] }

theorem foldl_append_str (l : List String) (a b : String) :
    List.foldl (fun r s => r ++ s) (a ++ b) l
      = a ++ List.foldl (fun r s => r ++ s) b l := by
  induction l generalizing b with
  | nil => rfl
  | cons x xs ih => simp only [List.foldl_cons, String.append_assoc, ih]

theorem join_cons (s : String) (l : List String) :
    String.join (s :: l) = s ++ String.join l := by
  have h := foldl_append_str l s ""
  simpa [String.join] using h

theorem convertSeq_eq_join (l : List ContentNode) (ctx : ConvertContext) :
    convertSeq l ctx = String.join (l.map fun n => convertNodeToMarkdown n ctx) := by
  induction l with
  | nil => simp [convertSeq, String.join]
  | cons n rest ih => simp [convertSeq, join_cons, ih]

theorem convertItems_eq_join (lt : ListType) (d i : Nat) (items : List ContentNode) :
    convertItems lt d i items
      = String.join ((List.enumFrom i items).map fun p =>
          convertNodeToMarkdown p.2 ⟨d, some lt, some p.1⟩) := by
  induction items generalizing i with
  | nil => simp [convertItems, String.join]
  | cons item rest ih => simp [convertItems, List.enumFrom, join_cons, ih]

theorem convertItemChildren_eq_join (children : List ContentNode) (ctx : ConvertContext) :
    convertItemChildren children ctx
      = String.join (children.map fun child =>
          if child.type = "bulletList" ∨ child.type = "orderedList" then
            "\n" ++ convertNodeToMarkdown child
              ⟨ctx.depth + 1,
                some (if child.type = "orderedList" then ListType.ordered else ListType.bullet),
                none⟩
          else convertNodeToMarkdown child ctx) := by
  induction children with
  | nil => simp [convertItemChildren, String.join]
  | cons child rest ih =>
    simp only [convertItemChildren, List.map_cons, join_cons, ih]

theorem convert_doc_eq (c : Option (List ContentNode)) (a : Option (Option Nat))
    (x : Option String) (ctx : ConvertContext) :
    convertNodeToMarkdown (ContentNode.mk "doc" c a x) ctx
      = match c with
        | some l => convertSeq l ctx
        | none => "" := by
  rw [convertNodeToMarkdown.eq_def]; simp

theorem convert_paragraph_eq (c : Option (List ContentNode)) (a : Option (Option Nat))
    (x : Option String) (ctx : ConvertContext) :
    convertNodeToMarkdown (ContentNode.mk "paragraph" c a x) ctx
      = (let text :=
          match c with
          | some l => convertSeq l ctx
          | none => ""
        if ctx.listType.isSome then text else text ++ "\n\n") := by
  rw [convertNodeToMarkdown.eq_def]; simp

theorem convert_heading_eq (c : Option (List ContentNode)) (a : Option (Option Nat))
    (x : Option String) (ctx : ConvertContext) :
    convertNodeToMarkdown (ContentNode.mk "heading" c a x) ctx
      = (let level :=
          match a with
          | some (some l) => if l = 0 then 1 else l
          | _ => 1
        let text :=
          match c with
          | some l => convertSeq l ctx
          | none => ""
        strRepeat level "#" ++ " " ++ text ++ "\n\n") := by
  rw [convertNodeToMarkdown.eq_def]; simp

theorem convert_bulletList_eq (c : Option (List ContentNode)) (a : Option (Option Nat))
    (x : Option String) (ctx : ConvertContext) :
    convertNodeToMarkdown (ContentNode.mk "bulletList" c a x) ctx
      = (let result := convertItems ListType.bullet ctx.depth 0 (c.getD [])
        if ctx.depth = 0 then result ++ "\n" else result) := by
  rw [convertNodeToMarkdown.eq_def]; simp

theorem convert_orderedList_eq (c : Option (List ContentNode)) (a : Option (Option Nat))
    (x : Option String) (ctx : ConvertContext) :
    convertNodeToMarkdown (ContentNode.mk "orderedList" c a x) ctx
      = (let result := convertItems ListType.ordered ctx.depth 0 (c.getD [])
        if ctx.depth = 0 then result ++ "\n" else result) := by
  rw [convertNodeToMarkdown.eq_def]; simp

theorem convert_listItem_eq (c : Option (List ContentNode)) (a : Option (Option Nat))
    (x : Option String) (ctx : ConvertContext) :
    convertNodeToMarkdown (ContentNode.mk "listItem" c a x) ctx
      = strRepeat ctx.depth "  "
        ++ (if ctx.listType = some ListType.ordered then
              toString (ctx.itemIndex.getD 0 + 1) ++ ". "
            else "- ")
        ++ convertItemChildren (c.getD []) ctx ++ "\n" := by
  rw [convertNodeToMarkdown.eq_def]; simp

theorem convert_text_eq (c : Option (List ContentNode)) (a : Option (Option Nat))
    (x : Option String) (ctx : ConvertContext) :
    convertNodeToMarkdown (ContentNode.mk "text" c a x) ctx = x.getD "" := by
  rw [convertNodeToMarkdown.eq_def]; simp

theorem renderAttachments_ok_eq (parse : String → Except String ContentNode)
    (atts : List Attachment) (h : ∀ a ∈ atts, ∃ n, parse a.content = Except.ok n) :
    renderAttachments parse atts
      = Except.ok (atts.map fun a =>
          match parse a.content with
          | Except.ok n => convertNodeToMarkdown n defaultCtx
          | Except.error _ => "") := by
  induction atts with
  | nil => simp [renderAttachments]
  | cons a rest ih =>
    obtain ⟨n, hn⟩ := h a (by simp)
    have hr := ih (fun b hb => h b (by simp [hb]))
    simp [renderAttachments, hn, hr]

theorem renderAttachments_err (parse : String → Except String ContentNode)
    (atts : List Attachment) (h : ∃ a ∈ atts, ∃ e, parse a.content = Except.error e) :
    ∃ e, renderAttachments parse atts = Except.error e := by
  induction atts with
  | nil => simp at h
  | cons a rest ih =>
    cases hpc : parse a.content with
    | error e => exact ⟨e, by simp [renderAttachments, hpc]⟩
    | ok n =>
      obtain ⟨b, hb, e, he⟩ := h
      rcases List.mem_cons.mp hb with hba | hbr
      · rw [hba] at he; rw [he] at hpc; cases hpc
      · obtain ⟨e2, he2⟩ := ih ⟨b, hbr, e, he⟩
        exact ⟨e2, by simp [renderAttachments, hpc, he2]⟩

/-- C1: a `listItem` node rendered in a context carrying a list type and an
item index produces `indent + prefix + concatenated child output + newline`,
where the indent is two spaces per depth level and the prefix is `"- "` for a
bullet context and the one-based index followed by `". "` for an ordered
context; a child that is itself a `bulletList` or `orderedList` is rendered at
depth one greater with its own list kind, its output preceded by one newline,
and every other child is rendered with the unchanged current context. -/
theorem c1_listItem_rendering (ctx : ConvertContext) (lt : ListType) (i : Nat)
    (c : Option (List ContentNode)) (a : Option (Option Nat)) (x : Option String)
    (hlt : ctx.listType = some lt) (hi : ctx.itemIndex = some i) :
    convertNodeToMarkdown (ContentNode.mk "listItem" c a x) ctx
      = strRepeat ctx.depth "  "
        ++ (if lt = ListType.bullet then "- " else toString (i + 1) ++ ". ")
        ++ String.join ((c.getD []).map fun child =>
            if child.type = "bulletList" ∨ child.type = "orderedList" then
              "\n" ++ convertNodeToMarkdown child
                ⟨ctx.depth + 1,
                  some (if child.type = "orderedList" then ListType.ordered
                        else ListType.bullet),
                  none⟩
            else convertNodeToMarkdown child ctx)
        ++ "\n" := by
  rw [convert_listItem_eq, convertItemChildren_eq_join, hlt, hi]
  cases lt <;> simp

/-- C1 witness: a bullet list item holding the text `"x"`, rendered at depth
one with item index zero, yields an indented dash line. -/
theorem c1_listItem_rendering_witness :
    convertNodeToMarkdown
        (ContentNode.mk "listItem"
          (some [ContentNode.mk "text" none none (some "x")]) none none)
        ⟨1, some ListType.bullet, some 0⟩
      = "  - x\n" := by
  have h := c1_listItem_rendering ⟨1, some ListType.bullet, some 0⟩
    ListType.bullet 0 (some [ContentNode.mk "text" none none (some "x")])
    none none rfl rfl
  rw [h]
  simp [ContentNode.type, convert_text_eq, strRepeat]
  rfl

/-- C2: a `bulletList` (resp. `orderedList`) node renders each child with a
context whose list type is bullet (resp. ordered), whose depth equals the
current depth, and whose item index is the child's zero-based position,
concatenates the results, and appends exactly one trailing newline when the
current depth is zero and none otherwise. -/
theorem c2_list_children_newline (ctx : ConvertContext) (c : Option (List ContentNode))
    (a : Option (Option Nat)) (x : Option String) :
    (convertNodeToMarkdown (ContentNode.mk "bulletList" c a x) ctx
      = String.join ((List.enumFrom 0 (c.getD [])).map fun p =>
          convertNodeToMarkdown p.2 ⟨ctx.depth, some ListType.bullet, some p.1⟩)
        ++ (if ctx.depth = 0 then "\n" else ""))
    ∧ (convertNodeToMarkdown (ContentNode.mk "orderedList" c a x) ctx
      = String.join ((List.enumFrom 0 (c.getD [])).map fun p =>
          convertNodeToMarkdown p.2 ⟨ctx.depth, some ListType.ordered, some p.1⟩)
        ++ (if ctx.depth = 0 then "\n" else "")) := by
  constructor
  · rw [convert_bulletList_eq, convertItems_eq_join]
    by_cases h : ctx.depth = 0 <;> simp [h]
  · rw [convert_orderedList_eq, convertItems_eq_join]
    by_cases h : ctx.depth = 0 <;> simp [h]

/-- C4: a `paragraph` node renders to the concatenation of its rendered
children, as-is when the context carries a list type and followed by exactly
two newlines when it does not. -/
theorem c4_paragraph_spacing (ctx : ConvertContext) (c : Option (List ContentNode))
    (a : Option (Option Nat)) (x : Option String) :
    convertNodeToMarkdown (ContentNode.mk "paragraph" c a x) ctx
      = (let txt := String.join ((c.getD []).map fun n => convertNodeToMarkdown n ctx)
        if ctx.listType.isSome then txt else txt ++ "\n\n") := by
  rw [convert_paragraph_eq]
  cases c <;> simp [convertSeq_eq_join, String.join]

/-- C5: a `heading` node renders to `attrs.level` hash marks (one when the
attribute bag or the level is absent; the level is a positive integer per the
data model), a space, the concatenated rendered children, and two newlines;
in particular a level-2 heading over the text `"Hi"` renders to
`"## Hi\n\n"`. -/
theorem c5_heading (ctx : ConvertContext) (c : Option (List ContentNode))
    (x : Option String) :
    (∀ a : Option (Option Nat), (∀ l, a = some (some l) → 0 < l) →
      convertNodeToMarkdown (ContentNode.mk "heading" c a x) ctx
        = strRepeat (match a with | some (some l) => l | _ => 1) "#" ++ " "
          ++ String.join ((c.getD []).map fun n => convertNodeToMarkdown n ctx)
          ++ "\n\n")
    ∧ convertNodeToMarkdown
        (ContentNode.mk "heading"
          (some [ContentNode.mk "text" none none (some "Hi")])
          (some (some 2)) none) defaultCtx
      = "## Hi\n\n" := by
  constructor
  · intro a hpos
    rw [convert_heading_eq]
    have hc : (match c with | some l => convertSeq l ctx | none => "")
        = String.join ((c.getD []).map fun n => convertNodeToMarkdown n ctx) := by
      cases c <;> simp [convertSeq_eq_join, String.join]
    match a with
    | none => simp [hc]
    | some none => simp [hc]
    | some (some l) =>
      have hl := hpos l rfl
      simp [hc, Nat.pos_iff_ne_zero.mp hl]
  · rw [convert_heading_eq]
    simp [convertSeq, convert_text_eq, strRepeat, defaultCtx]
    rfl

/-- C5 witness: the general heading equation instantiated at the level-2
heading over the text `"Hi"`. -/
theorem c5_heading_witness :
    convertNodeToMarkdown
        (ContentNode.mk "heading"
          (some [ContentNode.mk "text" none none (some "Hi")])
          (some (some 2)) none) defaultCtx
      = strRepeat 2 "#" ++ " "
        ++ String.join ([ContentNode.mk "text" none none (some "Hi")].map
            fun n => convertNodeToMarkdown n defaultCtx)
        ++ "\n\n" :=
  (c5_heading defaultCtx (some [ContentNode.mk "text" none none (some "Hi")])
    none).1 (some (some 2)) (by intro l hl; cases hl; decide)

/-- C6: the numeric marker of an ordered-list item depends only on the item's
zero-based position (rendered as the one-based position, a dot, and a space)
and on the depth, never on the item's own fields; a three-item ordered list at
top level renders its items with the markers `"1. "`, `"2. "`, `"3. "` in
order. -/
theorem c6_ordered_numbering :
    (∀ (d i : Nat) (c : Option (List ContentNode)) (a : Option (Option Nat))
        (x : Option String),
      ∃ rest, convertNodeToMarkdown (ContentNode.mk "listItem" c a x)
          ⟨d, some ListType.ordered, some i⟩
        = strRepeat d "  " ++ (toString (i + 1) ++ ". ") ++ rest)
    ∧ convertNodeToMarkdown orderedThree defaultCtx = "1. a\n2. b\n3. c\n\n" := by
  constructor
  · intro d i c a x
    refine ⟨convertItemChildren (c.getD []) ⟨d, some ListType.ordered, some i⟩ ++ "\n", ?_⟩
    rw [convert_listItem_eq]
    simp [String.append_assoc]
  · rw [show orderedThree
        = ContentNode.mk "orderedList"
            (some [ContentNode.mk "listItem"
                     (some [ContentNode.mk "text" none none (some "a")]) none none,
                   ContentNode.mk "listItem"
                     (some [ContentNode.mk "text" none none (some "b")]) none none,
                   ContentNode.mk "listItem"
                     (some [ContentNode.mk "text" none none (some "c")]) none none])
            none none from rfl]
    rw [convert_orderedList_eq]
    simp [convertItems, convertItemChildren, convert_listItem_eq, convert_text_eq,
      ContentNode.type, strRepeat, defaultCtx]
    rfl

/-- C7: a node whose `type` is none of the eight recognized tags renders to
the empty string, whatever its content, attributes, text, and context. -/
theorem c7_unknown_type (t : String) (c : Option (List ContentNode))
    (a : Option (Option Nat)) (x : Option String) (ctx : ConvertContext)
    (h : t ∉ ["doc", "paragraph", "heading", "bulletList", "orderedList",
              "listItem", "text", "horizontalRule"]) :
    convertNodeToMarkdown (ContentNode.mk t c a x) ctx = "" := by
  simp only [List.mem_cons, List.mem_singleton, not_or] at h
  obtain ⟨h1, h2, h3, h4, h5, h6, h7, h8⟩ := h
  rw [convertNodeToMarkdown.eq_def]
  simp [h1, h2, h3, h4, h5, h6, h7, h8]

/-- C7 witness: a `blockquote` node with content, attributes and text renders
to the empty string. -/
theorem c7_unknown_type_witness :
    convertNodeToMarkdown
        (ContentNode.mk "blockquote"
          (some [ContentNode.mk "text" none none (some "x")])
          (some (some 3)) (some "y")) defaultCtx
      = "" :=
  c7_unknown_type "blockquote"
    (some [ContentNode.mk "text" none none (some "x")])
    (some (some 3)) (some "y") defaultCtx (by simp)

/-- C9: the renderer is deterministic — equal node and context inputs give
equal output strings — and every sibling rendered from the same parent is
rendered with the very same context value. -/
theorem c9_pure_deterministic :
    (∀ (n1 n2 : ContentNode) (c1 c2 : ConvertContext), n1 = n2 → c1 = c2 →
      convertNodeToMarkdown n1 c1 = convertNodeToMarkdown n2 c2)
    ∧ (∀ (nodes : List ContentNode) (ctx : ConvertContext),
        convertSeq nodes ctx
          = String.join (nodes.map fun n => convertNodeToMarkdown n ctx)) :=
  ⟨fun n1 n2 c1 c2 hn hc => by rw [hn, hc], convertSeq_eq_join⟩

/-- C9 witness: determinism instantiated at a concrete text node and the
default context. -/
theorem c9_pure_deterministic_witness :
    convertNodeToMarkdown (ContentNode.mk "text" none none (some "x")) defaultCtx
      = convertNodeToMarkdown (ContentNode.mk "text" none none (some "x")) defaultCtx :=
  c9_pure_deterministic.1 (ContentNode.mk "text" none none (some "x"))
    (ContentNode.mk "text" none none (some "x")) defaultCtx defaultCtx rfl rfl

/-- C10: a `bulletList` or `orderedList` with absent or empty content renders
to a single newline at depth zero and to the empty string at positive depth,
while a `doc` with absent or empty content renders to the empty string. -/
theorem c10_empty_list (t : String) (ht : t = "bulletList" ∨ t = "orderedList")
    (c : Option (List ContentNode)) (hc : c = none ∨ c = some [])
    (a : Option (Option Nat)) (x : Option String) (ctx : ConvertContext) :
    (ctx.depth = 0 → convertNodeToMarkdown (ContentNode.mk t c a x) ctx = "\n")
    ∧ (0 < ctx.depth → convertNodeToMarkdown (ContentNode.mk t c a x) ctx = "")
    ∧ convertNodeToMarkdown (ContentNode.mk "doc" c a x) ctx = "" := by
  refine ⟨?_, ?_, ?_⟩
  · intro hd
    rcases ht with ht | ht <;> rw [ht] <;>
      [rw [convert_bulletList_eq]; rw [convert_orderedList_eq]] <;>
      rcases hc with hc | hc <;> simp [hc, hd, convertItems]
  · intro hd
    rcases ht with ht | ht <;> rw [ht] <;>
      [rw [convert_bulletList_eq]; rw [convert_orderedList_eq]] <;>
      rcases hc with hc | hc <;> simp [hc, Nat.pos_iff_ne_zero.mp hd, convertItems]
  · rw [convert_doc_eq]
    rcases hc with hc | hc <;> simp [hc, convertSeq]

/-- C3: for a structure of the legacy form (an attachments sequence, no
`"doc"` type tag), the renderer parses each attachment's content string,
renders each parsed tree with the fresh top-level context, and joins the
results with the separator built of a space, two newlines and a space; when
parsing any attachment's content fails, the whole call yields an error and no
output string. -/
theorem c3_legacy_attachments (parse : String → Except String ContentNode)
    (d : DocumentStructure) (atts : List Attachment)
    (hdoc : d.type ≠ some "doc") (hatt : d.attachments = some atts) :
    ((∀ a ∈ atts, ∃ n, parse a.content = Except.ok n) →
      convertDocumentToMarkdown parse (some d)
        = Except.ok (String.intercalate " \n\n " (atts.map fun a =>
            match parse a.content with
            | Except.ok n => convertNodeToMarkdown n defaultCtx
            | Except.error _ => "")))
    ∧ ((∃ a ∈ atts, ∃ e, parse a.content = Except.error e) →
        ∃ e, convertDocumentToMarkdown parse (some d) = Except.error e) := by
  constructor
  · intro hok
    simp [convertDocumentToMarkdown, hdoc, hatt,
      renderAttachments_ok_eq parse atts hok]
  · intro hbad
    obtain ⟨e, he⟩ := renderAttachments_err parse atts hbad
    exact ⟨e, by simp [convertDocumentToMarkdown, hdoc, hatt, he]⟩

/-- C3 witness: two well-parsed single-text attachments join with the exact
separator, and a malformed second attachment makes the whole call fail. -/
theorem c3_legacy_attachments_witness :
    convertDocumentToMarkdown sampleParse (some sampleLegacyDoc)
        = Except.ok "a \n\n b"
    ∧ ∃ e, convertDocumentToMarkdown sampleParse (some sampleBadLegacyDoc)
        = Except.error e := by
  constructor
  · have h := (c3_legacy_attachments sampleParse sampleLegacyDoc
      [⟨"first"⟩, ⟨"second"⟩] (by simp [sampleLegacyDoc]) rfl).1
      (by intro a ha; fin_cases ha <;> exact ⟨_, rfl⟩)
    rw [h]
    simp [sampleParse, convert_text_eq]
    rfl
  · exact (c3_legacy_attachments sampleParse sampleBadLegacyDoc
      [⟨"first"⟩, ⟨"oops"⟩] (by simp [sampleBadLegacyDoc]) rfl).2
      ⟨⟨"oops"⟩, by simp, "Unexpected token", rfl⟩

/-- C8: the document dispatcher yields the empty string for an absent
structure and for a structure that neither carries the `"doc"` type tag nor an
attachments sequence; for a `"doc"`-tagged structure it yields exactly the
node renderer's output under the fresh top-level context, which is the empty
string for a doc with empty content. -/
theorem c8_document_dispatch (parse : String → Except String ContentNode) :
    convertDocumentToMarkdown parse none = Except.ok ""
    ∧ (∀ d : DocumentStructure, d.type ≠ some "doc" → d.attachments = none →
        convertDocumentToMarkdown parse (some d) = Except.ok "")
    ∧ (∀ d : DocumentStructure, d.type = some "doc" →
        convertDocumentToMarkdown parse (some d)
          = Except.ok (convertNodeToMarkdown
              (ContentNode.mk "doc" d.content d.attrs d.text) defaultCtx))
    ∧ convertDocumentToMarkdown parse
        (some { type := some "doc", content := some [] })
      = Except.ok "" := by
  refine ⟨rfl, ?_, ?_, ?_⟩
  · intro d hdoc hatt
    simp [convertDocumentToMarkdown, hdoc, hatt]
  · intro d hdoc
    simp [convertDocumentToMarkdown, hdoc]
  · simp [convertDocumentToMarkdown, convert_doc_eq, convertSeq]

/-- C8 witness: the dispatch equations instantiated at a structure with no
fields and at a doc-tagged structure with empty content. -/
theorem c8_document_dispatch_witness :
    convertDocumentToMarkdown sampleParse (some {}) = Except.ok ""
    ∧ convertDocumentToMarkdown sampleParse
        (some { type := some "doc", content := some [] })
      = Except.ok (convertNodeToMarkdown
          (ContentNode.mk "doc" (some []) none none) defaultCtx) :=
  ⟨(c8_document_dispatch sampleParse).2.1 {} (by simp) rfl,
   (c8_document_dispatch sampleParse).2.2.1
     { type := some "doc", content := some [] } rfl⟩

/-- C10 witness: an empty top-level bullet list renders to one newline. -/
theorem c10_empty_list_witness :
    convertNodeToMarkdown (ContentNode.mk "bulletList" none none none) defaultCtx
      = "\n" :=
  (c10_empty_list "bulletList" (Or.inl rfl) none (Or.inl rfl) none none
    defaultCtx).1 rfl

end Granola
